import Mathlib

/-!
Shallow embedding of `emu_log.go`: a scheduled ETL job that resolves train
assignments from scan codes via two provider adapters (bureaus "H" and "P"),
and logs them into an SQLite database.

Times are modelled as minutes, either minutes-since-epoch in local time for
absolute instants, or as plain naturals.  The program warns unless the local
zone is UTC+8 (a whole-hour offset), under which `time.Truncate(time.Hour)`
coincides with rounding the local wall clock down to the hour.
-/

namespace EmuLog

/-! ## Provider responses and the `TrainNo` extractors

`JsonObject` is Go's `map[string]interface{}` restricted to the shapes the
program can meet: a JSON value is a string, a number, null, or something
else.  A missing key yields `none`, as a Go map lookup yields `nil`.

Go's naked type assertion `v.(string)` either yields the string or panics;
`TrainNoOutcome` distinguishes a normal return of the Go triple
`(trainNo, date, err)` from a panic.  In the Go triple an unassigned string
result is the zero value `""` and `hasErr` models `err != nil`.
-/

inductive GoVal
  | vstr (s : String)
  | vnum (n : Int)
  | vnull
  | vother
deriving DecidableEq

abbrev JsonObject := List (String × GoVal)

structure GoTriple where
  trainNo : String
  date : String
  hasErr : Bool
deriving DecidableEq

inductive TrainNoOutcome
  | ret (t : GoTriple)
  | panic
deriving DecidableEq

/-- Bureau "H" `TrainNo` (emu_log.go lines 37–45): on an `Info` error it
returns the zero-valued triple with the error; otherwise it asserts
`info["trainName"].(string)` — panicking when the key is absent or not a
string — and takes today's formatted date. -/
def trainNoH (infoRes : Except String JsonObject) (today : String) : TrainNoOutcome :=
  match infoRes with
  | .error _ => .ret ⟨"", "", true⟩
  | .ok info =>
    match info.lookup "trainName" with
    | some (.vstr s) => .ret ⟨s, today, false⟩
    | _ => .panic

/-- Bureau "P" `TrainNo` (emu_log.go lines 68–76): on an `Info` error it
returns the zero-valued triple with the error; otherwise it asserts
`info["TrainnoId"].(string)` and then `info["TrainnoDate"].(string)`,
panicking when either is absent or not a string. -/
def trainNoP (infoRes : Except String JsonObject) : TrainNoOutcome :=
  match infoRes with
  | .error _ => .ret ⟨"", "", true⟩
  | .ok info =>
    match info.lookup "TrainnoId" with
    | some (.vstr s) =>
      match info.lookup "TrainnoDate" with
      | some (.vstr d) => .ret ⟨s, d, false⟩
      | _ => .panic
    | _ => .panic

/-! ## Scheduler

Constants from emu_log.go lines 109–115, in minutes.  `todayOf now` is
`time.Date(now.Year, now.Month, now.Day, 0, 0, 0, 0, time.Local)`: midnight
of the day containing `now`.  `nextRunAt` is the branch structure of
emu_log.go lines 130–136 with `today` as the code computes it passed in;
`nextRun` ties the two together as the loop body does. -/

def startTime : Nat := 5 * 60

def endTime : Nat := 24 * 60

def dayMinutes : Nat := 24 * 60

def repeatInterval : Nat := 60

def todayOf (now : Nat) : Nat := now - now % dayMinutes

def nextRunAt (now today : Nat) : Nat :=
  if now < today + startTime then today + startTime
  else if today + endTime < now then today + dayMinutes
  else now / repeatInterval * repeatInterval + repeatInterval

def nextRun (now : Nat) : Nat := nextRunAt now (todayOf now)

/-! ## Log-table insert

`INSERT OR IGNORE INTO emu_log VALUES (date, emu_no, train_no)` against
`UNIQUE(date, emu_no, train_no)` (emu_log.go lines 172–175, 214–219):
when the triple is already present the row is silently ignored and the
statement succeeds — the operation is total, a duplicate is never an
error — otherwise the row is appended. -/

abbrev Triple := String × String × String

def insertOrIgnore (t : List Triple) (r : Triple) : List Triple :=
  if r ∈ t then t else t ++ [r]

/-! ## The scan-code query

`emu_qrcode` rows (emu_log.go lines 226–231) carry an SQLite `rowid` that
records insertion order.  The query of emu_log.go lines 155–161,

  SELECT emu_no, emu_qrcode, MIN(rowid) FROM emu_qrcode
  WHERE emu_bureau = ? GROUP BY emu_no ORDER BY emu_no ASC

filters to the bureau, groups by `emu_no`, and — by SQLite's bare-column
rule for a single `MIN` aggregate — reports for each group the row that
attains the minimal rowid, ordered by `emu_no` ascending. -/

structure QRRow where
  rowid : Nat
  emu_no : String
  emu_bureau : String
  emu_qrcode : String
deriving DecidableEq

def groupRows (t : List QRRow) (code emu : String) : List QRRow :=
  t.filter (fun r => r.emu_bureau == code && r.emu_no == emu)

def minByRowid : List QRRow → Option QRRow
  | [] => none
  | r :: rs =>
    match minByRowid rs with
    | none => some r
    | some m => if r.rowid ≤ m.rowid then some r else some m

def vehicleIds (t : List QRRow) (code : String) : List String :=
  List.insertionSort (· ≤ ·)
    (((t.filter (fun r => r.emu_bureau == code)).map (fun r => r.emu_no)).dedup)

def selectScanCodes (t : List QRRow) (code : String) : List QRRow :=
  (vehicleIds t code).filterMap (fun emu => minByRowid (groupRows t code emu))

/-- The property the query claim asserts of `selectScanCodes`: exactly one
row per vehicle of the bureau, each the minimal-rowid row of its vehicle,
in strictly ascending vehicle-id order. -/
def SelectSpec (t : List QRRow) (code : String) : Prop :=
  (selectScanCodes t code).map (fun r => r.emu_no) = vehicleIds t code ∧
  List.Sorted (· < ·) ((selectScanCodes t code).map (fun r => r.emu_no)) ∧
  (∀ r ∈ selectScanCodes t code, r ∈ t ∧ r.emu_bureau = code ∧
    ∀ r₂ ∈ t, r₂.emu_bureau = code → r₂.emu_no = r.emu_no → r.rowid ≤ r₂.rowid) ∧
  (∀ r ∈ t, r.emu_bureau = code →
    r.emu_no ∈ (selectScanCodes t code).map (fun r => r.emu_no))

/-! ## The batch runner

`iterVehicles` (emu_log.go lines 151–180) walks the query's rows.  Each
row is delivered by `rows.Next` / `rows.Scan`, which can fail
(`Except.error`); `checkFatal` on any storage error calls
`log.Fatal`, i.e. `os.Exit(1)`.  For a scanned row the runner calls
`b.TrainNo(b, qrCode)` DISCARDING the error (`trainNo, date, _ :=`), and
inserts `(date, emuNo, trainNo)` exactly when `trainNo != ""`; a panic in
`TrainNo` crashes the process.  The insert's `db.Exec` outcome is modelled
by `ins`; an error there is again fatal with exit status 1.

`BatchOutcome` records the inserts performed, in order, and how the walk
ended: normally, by `os.Exit 1`, or by panic. -/

structure VRow where
  emuNo : String
  qrCode : String
deriving DecidableEq

inductive BatchOutcome
  | done (inserted : List Triple)
  | fatalExit (inserted : List Triple) (code : Nat)
  | panicked (inserted : List Triple)
deriving DecidableEq

def iterVehiclesGo (resolve : String → TrainNoOutcome)
    (ins : Triple → Except String Unit) :
    List (Except String VRow) → List Triple → BatchOutcome
  | [], acc => .done acc.reverse
  | .error _ :: _, acc => .fatalExit acc.reverse 1
  | .ok row :: rest, acc =>
    match resolve row.qrCode with
    | .panic => .panicked acc.reverse
    | .ret t =>
      if t.trainNo ≠ "" then
        match ins (t.date, row.emuNo, t.trainNo) with
        | .error _ => .fatalExit acc.reverse 1
        | .ok _ => iterVehiclesGo resolve ins rest ((t.date, row.emuNo, t.trainNo) :: acc)
      else iterVehiclesGo resolve ins rest acc

def iterVehicles (resolve : String → TrainNoOutcome)
    (ins : Triple → Except String Unit)
    (queryRes : Except String (List (Except String VRow))) : BatchOutcome :=
  match queryRes with
  | .error _ => .fatalExit [] 1
  | .ok scans => iterVehiclesGo resolve ins scans []

end EmuLog

namespace EmuLog

/-! ## Theorems: scheduler claims -/

/-- C8: for every current time strictly before the day's window start
(05:00), the next-run computation returns 05:00 of the same day. -/
theorem c8_before_window_start (now : Nat) (h : now % dayMinutes < startTime) :
    nextRun now = todayOf now + startTime := by
  unfold nextRun nextRunAt todayOf startTime dayMinutes at *
  split_ifs <;> omega

/-- C8 witness: now = 03:00 (minute 180 of day 0) is before 05:00 and the
next run is 05:00 the same day (minute 300 of day 0). -/
theorem c8_before_window_start_witness :
    180 % dayMinutes < startTime ∧ nextRun 180 = todayOf 180 + startTime :=
  ⟨by decide, c8_before_window_start 180 (by decide)⟩

/-- C7: for every current time inside the active window [05:00, 24:00),
the next-run computation returns the time rounded down to the whole hour
plus one hour.  (The upper window bound holds for every instant, since a
time is never past the midnight that follows it.) -/
theorem c7_inside_window (now : Nat) (h : startTime ≤ now % dayMinutes) :
    nextRun now = now / 60 * 60 + 60 := by
  unfold nextRun nextRunAt todayOf startTime endTime dayMinutes repeatInterval at *
  split_ifs <;> omega

/-- C7 witness: now = 16:40 (minute 1000 of day 0) is inside the window
and the next run is 17:00 (minute 1020). -/
theorem c7_inside_window_witness :
    startTime ≤ 1000 % dayMinutes ∧ nextRun 1000 = 1000 / 60 * 60 + 60 :=
  ⟨by decide, c7_inside_window 1000 (by decide)⟩

/-- C2 counterexample: with now strictly after the window end (minute 1441,
one minute past 24:00 of the day starting at minute 0), the computation
returns minute 1440 (midnight), not minute 1740 (05:00 of the following
day) as the claim states. -/
theorem c2_after_window_end_counterexample :
    ¬ nextRunAt 1441 0 = 0 + dayMinutes + startTime := by decide

/-- C2 amended: for every current time strictly after the day's window end
(24:00), the next-run branch returns 00:00 (midnight) of the following day,
not 05:00; moreover, when `today` is derived from `now` as the loop does,
this branch is unreachable, since an instant never lies strictly after the
midnight following it. -/
theorem c2_after_window_end :
    (∀ now today, today + endTime < now → nextRunAt now today = today + dayMinutes) ∧
    (∀ now, ¬ todayOf now + endTime < now) := by
  refine ⟨?_, ?_⟩
  · intro now today h
    unfold nextRunAt startTime endTime dayMinutes at *
    split_ifs <;> omega
  · intro now
    unfold todayOf endTime dayMinutes
    omega

/-- C2 witness: at now = minute 2000, today = minute 0 (so now is strictly
after that day's 24:00), the branch returns minute 1440, midnight of the
following day. -/
theorem c2_after_window_end_witness :
    0 + endTime < 2000 ∧ nextRunAt 2000 0 = 0 + dayMinutes :=
  ⟨by decide, c2_after_window_end.1 2000 0 (by decide)⟩

/-- C3 counterexample: at now = 01:00 (minute 60 of day 0) the next-run
computation does not return 05:00 of the next day (minute 1740): it
returns minute 300, 05:00 of the same day. -/
theorem c3_0100_counterexample :
    ¬ nextRun 60 = dayMinutes + startTime := by decide

/-- C3 amended: with a fixed now of 01:00 local time (minute 60 of any
day d), the next-run computation returns 05:00 of the same day
(minute 300 of day d), four hours later — not 05:00 of the next day. -/
theorem c3_0100_next_run (d : Nat) :
    nextRun (d * dayMinutes + 60) = d * dayMinutes + startTime := by
  unfold nextRun nextRunAt todayOf startTime endTime dayMinutes repeatInterval
  split_ifs <;> omega

/-! ## Theorems: the extractors -/

/-- C1: the code, not the claim — on a provider response missing the
required field, or carrying it with a non-string shape, both bureaus'
`TrainNo` extractors PANIC (the naked Go type assertions
`info["trainName"].(string)`, `info["TrainnoId"].(string)`,
`info["TrainnoDate"].(string)`), instead of returning an error to the
caller as the claim and spec state. -/
theorem c1_extract_panics_on_malformed :
    trainNoH (Except.ok ([] : JsonObject)) "2024-01-02" = .panic ∧
    trainNoH (Except.ok [("trainName", GoVal.vnum 7)]) "2024-01-02" = .panic ∧
    trainNoP (Except.ok ([] : JsonObject)) = .panic ∧
    trainNoP (Except.ok [("TrainnoId", GoVal.vstr "G101")]) = .panic := by
  refine ⟨rfl, by decide, rfl, by decide⟩

/-! ## Theorems: the log insert -/

/-- C4: the insert is idempotent.  On a table where the UNIQUE constraint
holds for the triple (it occurs at most once), inserting the same
(date, vehicle-id, assignment-id) twice leaves exactly one row equal to
that triple, and the duplicate insert is a no-op; `insertOrIgnore` is a
total function — the ignored duplicate is not an error. -/
theorem c4_insert_idempotent (t : List Triple) (r : Triple) (h : t.count r ≤ 1) :
    (insertOrIgnore (insertOrIgnore t r) r).count r = 1 ∧
    insertOrIgnore (insertOrIgnore t r) r = insertOrIgnore t r := by
  have hmem : r ∈ insertOrIgnore t r := by
    unfold insertOrIgnore
    split_ifs with hm
    · exact hm
    · simp
  have hsnd : insertOrIgnore (insertOrIgnore t r) r = insertOrIgnore t r := by
    rw [insertOrIgnore, if_pos hmem]
  refine ⟨?_, hsnd⟩
  rw [hsnd]
  unfold insertOrIgnore
  split_ifs with hm
  · have : t.count r ≠ 0 := fun h0 => (List.count_eq_zero.mp h0) hm
    omega
  · have h0 : t.count r = 0 := List.count_eq_zero.mpr hm
    rw [List.count_append]
    simp [h0]

/-- C4 witness: on the empty table the triple occurs zero times; after two
inserts it occurs exactly once and the second insert changed nothing. -/
theorem c4_insert_idempotent_witness :
    ([] : List Triple).count ("2024-01-02", "CRH1-001", "G101") ≤ 1 ∧
    ((insertOrIgnore (insertOrIgnore [] ("2024-01-02", "CRH1-001", "G101"))
        ("2024-01-02", "CRH1-001", "G101")).count ("2024-01-02", "CRH1-001", "G101") = 1 ∧
      insertOrIgnore (insertOrIgnore [] ("2024-01-02", "CRH1-001", "G101"))
          ("2024-01-02", "CRH1-001", "G101") =
        insertOrIgnore [] ("2024-01-02", "CRH1-001", "G101")) :=
  ⟨by decide, c4_insert_idempotent [] ("2024-01-02", "CRH1-001", "G101") (by decide)⟩

/-! ## Theorems: the batch runner -/

/-- C9: when resolution returns an error for one vehicle's record — both
bureaus' `TrainNo` return an error exactly when `Info` fails, and then
yield the zero triple with `trainNo = ""` — the runner inserts nothing for
that vehicle and continues with the remaining vehicles unchanged. -/
theorem c9_resolution_error_skips (resolve : String → TrainNoOutcome)
    (ins : Triple → Except String Unit) (row : VRow)
    (rest : List (Except String VRow)) (acc : List Triple) (e today : String)
    (h : resolve row.qrCode = trainNoH (Except.error e) today ∨
         resolve row.qrCode = trainNoP (Except.error e)) :
    iterVehiclesGo resolve ins (.ok row :: rest) acc =
      iterVehiclesGo resolve ins rest acc := by
  have ht : resolve row.qrCode = .ret ⟨"", "", true⟩ := by
    rcases h with h | h <;> simpa [trainNoH, trainNoP] using h
  simp [iterVehiclesGo, ht]

/-- C9 witness: with a resolver whose `Info` fails for the one queued
vehicle, the runner's outcome on that row equals the outcome on the rest
of the batch (here: empty, so the batch still completes). -/
theorem c9_resolution_error_skips_witness :
    iterVehiclesGo (fun _ => trainNoH (Except.error "timeout") "2024-01-02")
        (fun _ => Except.ok ()) [Except.ok ⟨"CRH1-001", "PQ0001"⟩] [] =
      iterVehiclesGo (fun _ => trainNoH (Except.error "timeout") "2024-01-02")
        (fun _ => Except.ok ()) [] [] :=
  c9_resolution_error_skips _ _ ⟨"CRH1-001", "PQ0001"⟩ [] [] "timeout" "2024-01-02"
    (Or.inl rfl)

/-- C10: the runner inserts a log entry for a vehicle exactly when the
resolved assignment id is non-empty, regardless of the discarded error
flag: an empty `trainNo` is silently skipped even when resolution
succeeded, and a non-empty one is inserted even when it carried an
error. -/
theorem c10_insert_iff_nonempty (resolve : String → TrainNoOutcome)
    (ins : Triple → Except String Unit) (row : VRow)
    (rest : List (Except String VRow)) (acc : List Triple) (t : GoTriple)
    (hres : resolve row.qrCode = .ret t) :
    (t.trainNo = "" →
      iterVehiclesGo resolve ins (.ok row :: rest) acc =
        iterVehiclesGo resolve ins rest acc) ∧
    (∀ u, t.trainNo ≠ "" → ins (t.date, row.emuNo, t.trainNo) = .ok u →
      iterVehiclesGo resolve ins (.ok row :: rest) acc =
        iterVehiclesGo resolve ins rest ((t.date, row.emuNo, t.trainNo) :: acc)) := by
  constructor
  · intro he
    simp [iterVehiclesGo, hres, he]
  · intro u hne hins
    simp [iterVehiclesGo, hres, hne, hins]

/-- C10 witness: a successful resolution with an empty id is skipped, and
a non-empty id (even one flagged with an error) is inserted. -/
theorem c10_insert_iff_nonempty_witness :
    iterVehiclesGo (fun _ => .ret ⟨"", "2024-01-02", false⟩) (fun _ => Except.ok ())
        [Except.ok ⟨"CRH1-001", "PQ0001"⟩] [] =
      iterVehiclesGo (fun _ => .ret ⟨"", "2024-01-02", false⟩) (fun _ => Except.ok ()) [] [] :=
  (c10_insert_iff_nonempty (fun _ => .ret ⟨"", "2024-01-02", false⟩) (fun _ => Except.ok ())
    ⟨"CRH1-001", "PQ0001"⟩ [] [] ⟨"", "2024-01-02", false⟩ rfl).1 rfl

/-- Everything after a failing row scan is irrelevant to the batch
outcome: the walk never looks past the `checkFatal(rows.Scan(...))` that
fails. -/
theorem iterVehiclesGo_scan_error_drops_rest (resolve : String → TrainNoOutcome)
    (ins : Triple → Except String Unit) (e : String)
    (s₁ : List (Except String VRow)) :
    ∀ (s₂ s₂' : List (Except String VRow)) (acc : List Triple),
      iterVehiclesGo resolve ins (s₁ ++ Except.error e :: s₂) acc =
        iterVehiclesGo resolve ins (s₁ ++ Except.error e :: s₂') acc := by
  induction s₁ with
  | nil => intro s₂ s₂' acc; simp [iterVehiclesGo]
  | cons hd tl ih =>
    intro s₂ s₂' acc
    cases hd with
    | error e₂ => simp [iterVehiclesGo]
    | ok row =>
      simp only [List.cons_append, iterVehiclesGo]
      cases hr : resolve row.qrCode with
      | panic => rfl
      | ret t =>
        by_cases hne : t.trainNo = ""
        · simp only [hne, ne_eq, not_true_eq_false, if_false]
          exact ih s₂ s₂' acc
        · simp only [ne_eq, hne, not_false_eq_true, if_true]
          cases hins : ins (t.date, row.emuNo, t.trainNo) with
          | error e₃ => rfl
          | ok u => exact ih s₂ s₂' _

/-- A batch whose scan stream contains a row-scan error, walked with a
non-panicking resolver, always ends in `os.Exit 1`. -/
theorem iterVehiclesGo_scan_error_fatal (resolve : String → TrainNoOutcome)
    (ins : Triple → Except String Unit) (e : String)
    (hnp : ∀ q, resolve q ≠ .panic) (s₁ : List (Except String VRow)) :
    ∀ (s₂ : List (Except String VRow)) (acc : List Triple),
      ∃ l, iterVehiclesGo resolve ins (s₁ ++ Except.error e :: s₂) acc =
        BatchOutcome.fatalExit l 1 := by
  induction s₁ with
  | nil => intro s₂ acc; exact ⟨acc.reverse, by simp [iterVehiclesGo]⟩
  | cons hd tl ih =>
    intro s₂ acc
    cases hd with
    | error e₂ => exact ⟨acc.reverse, by simp [iterVehiclesGo]⟩
    | ok row =>
      simp only [List.cons_append, iterVehiclesGo]
      cases hr : resolve row.qrCode with
      | panic => exact absurd hr (hnp _)
      | ret t =>
        by_cases hne : t.trainNo = ""
        · simp only [hne, ne_eq, not_true_eq_false, if_false]
          exact ih s₂ acc
        · simp only [ne_eq, hne, not_false_eq_true, if_true]
          cases hins : ins (t.date, row.emuNo, t.trainNo) with
          | error e₃ => exact ⟨acc.reverse, rfl⟩
          | ok u => exact ih s₂ _

/-- C6: every storage error is fatal.  (1) A failed query terminates the
process with exit status 1 before any record is processed.  (2)–(3) A
failed row scan: the outcome is independent of everything queued after the
failing scan, and (for a resolver that does not panic first) the process
terminates with exit status 1.  (4) A failed insert terminates the process
with exit status 1 at once, with no further records of the batch
processed, whatever remains queued. -/
theorem c6_storage_error_fatal :
    (∀ (resolve : String → TrainNoOutcome) (ins : Triple → Except String Unit)
      (e : String), iterVehicles resolve ins (Except.error e) = .fatalExit [] 1) ∧
    (∀ resolve ins (e : String) s₁ s₂ s₂' acc,
      iterVehiclesGo resolve ins (s₁ ++ Except.error e :: s₂) acc =
        iterVehiclesGo resolve ins (s₁ ++ Except.error e :: s₂') acc) ∧
    (∀ resolve ins (e : String) s₁ s₂ acc, (∀ q, resolve q ≠ .panic) →
      ∃ l, iterVehiclesGo resolve ins (s₁ ++ Except.error e :: s₂) acc =
        BatchOutcome.fatalExit l 1) ∧
    (∀ resolve ins (row : VRow) rest acc (t : GoTriple) (er : String),
      resolve row.qrCode = .ret t → t.trainNo ≠ "" →
      ins (t.date, row.emuNo, t.trainNo) = Except.error er →
      iterVehiclesGo resolve ins (.ok row :: rest) acc = .fatalExit acc.reverse 1) := by
  refine ⟨fun _ _ _ => rfl, ?_, ?_, ?_⟩
  · intro resolve ins e s₁ s₂ s₂' acc
    exact iterVehiclesGo_scan_error_drops_rest resolve ins e s₁ s₂ s₂' acc
  · intro resolve ins e s₁ s₂ acc hnp
    exact iterVehiclesGo_scan_error_fatal resolve ins e hnp s₁ s₂ acc
  · intro resolve ins row rest acc t er hres hne hins
    simp [iterVehiclesGo, hres, hne, hins]

/-- C6 witness: concrete instances — a failed open/query, a failed row
scan with one further row queued, and a failed insert with one further
row queued, each ending in exit status 1 without touching what follows. -/
theorem c6_storage_error_fatal_witness :
    iterVehicles (fun _ => .ret ⟨"G101", "2024-01-02", false⟩) (fun _ => Except.ok ())
        (Except.error "cannot open ./emu_log.db") = .fatalExit [] 1 ∧
    iterVehiclesGo (fun _ => .ret ⟨"G101", "2024-01-02", false⟩) (fun _ => Except.ok ())
        ([] ++ Except.error "scan failed" :: [Except.ok ⟨"CRH1-002", "PQ0002"⟩]) [] =
      iterVehiclesGo (fun _ => .ret ⟨"G101", "2024-01-02", false⟩) (fun _ => Except.ok ())
        ([] ++ Except.error "scan failed" :: []) [] ∧
    (∃ l, iterVehiclesGo (fun _ => .ret ⟨"G101", "2024-01-02", false⟩)
        (fun _ => Except.ok ())
        ([] ++ Except.error "scan failed" :: [Except.ok ⟨"CRH1-002", "PQ0002"⟩]) [] =
      BatchOutcome.fatalExit l 1) ∧
    iterVehiclesGo (fun _ => .ret ⟨"G101", "2024-01-02", false⟩)
        (fun _ => Except.error "database is locked")
        (.ok ⟨"CRH1-001", "PQ0001"⟩ :: [Except.ok ⟨"CRH1-002", "PQ0002"⟩]) [] =
      .fatalExit ([] : List Triple).reverse 1 :=
  ⟨c6_storage_error_fatal.1 _ _ _,
   c6_storage_error_fatal.2.1 _ _ "scan failed" [] [Except.ok ⟨"CRH1-002", "PQ0002"⟩] [] [],
   c6_storage_error_fatal.2.2.1 _ _ "scan failed" [] [Except.ok ⟨"CRH1-002", "PQ0002"⟩] []
     (fun _ h => TrainNoOutcome.noConfusion h),
   c6_storage_error_fatal.2.2.2 _ _ ⟨"CRH1-001", "PQ0001"⟩ [Except.ok ⟨"CRH1-002", "PQ0002"⟩]
     [] ⟨"G101", "2024-01-02", false⟩ "database is locked" rfl (by decide) rfl⟩

/-! ## Theorems: the scan-code query -/

theorem minByRowid_eq_none {l : List QRRow} : minByRowid l = none ↔ l = [] := by
  cases l with
  | nil => simp [minByRowid]
  | cons r rs =>
    simp only [minByRowid]
    cases minByRowid rs with
    | none => simp
    | some m => by_cases h : r.rowid ≤ m.rowid <;> simp [h]

theorem minByRowid_mem : ∀ {l : List QRRow} {r : QRRow}, minByRowid l = some r → r ∈ l := by
  intro l
  induction l with
  | nil => intro r h; simp [minByRowid] at h
  | cons a as ih =>
    intro r h
    cases hm : minByRowid as with
    | none =>
      simp only [minByRowid, hm] at h
      cases h
      simp
    | some m =>
      simp only [minByRowid, hm] at h
      by_cases hle : a.rowid ≤ m.rowid
      · rw [if_pos hle] at h
        cases h
        simp
      · rw [if_neg hle] at h
        cases h
        exact List.mem_cons_of_mem a (ih hm)

theorem minByRowid_le : ∀ {l : List QRRow} {r : QRRow}, minByRowid l = some r →
    ∀ x ∈ l, r.rowid ≤ x.rowid := by
  intro l
  induction l with
  | nil => intro r h; simp [minByRowid] at h
  | cons a as ih =>
    intro r h x hx
    cases hm : minByRowid as with
    | none =>
      simp only [minByRowid, hm] at h
      cases h
      rcases List.mem_cons.mp hx with rfl | hx
      · exact Nat.le_refl _
      · exact absurd (minByRowid_eq_none.mp hm ▸ hx) (List.not_mem_nil x)
    | some m =>
      simp only [minByRowid, hm] at h
      by_cases hle : a.rowid ≤ m.rowid
      · rw [if_pos hle] at h
        cases h
        rcases List.mem_cons.mp hx with rfl | hx
        · exact Nat.le_refl _
        · exact Nat.le_trans hle (ih hm x hx)
      · rw [if_neg hle] at h
        cases h
        rcases List.mem_cons.mp hx with rfl | hx
        · exact Nat.le_of_lt (Nat.lt_of_not_le hle)
        · exact ih hm x hx

theorem mem_groupRows {t : List QRRow} {code emu : String} {r : QRRow} :
    r ∈ groupRows t code emu ↔ r ∈ t ∧ r.emu_bureau = code ∧ r.emu_no = emu := by
  simp [groupRows, List.mem_filter, and_assoc]

theorem mem_vehicleIds {t : List QRRow} {code emu : String} :
    emu ∈ vehicleIds t code ↔ ∃ r ∈ t, r.emu_bureau = code ∧ r.emu_no = emu := by
  unfold vehicleIds
  rw [(List.perm_insertionSort _ _).mem_iff, List.mem_dedup]
  simp [List.mem_map, List.mem_filter, and_assoc]

theorem groupRows_ne_nil {t : List QRRow} {code emu : String}
    (h : emu ∈ vehicleIds t code) : groupRows t code emu ≠ [] := by
  rcases mem_vehicleIds.mp h with ⟨r, hr, hb, he⟩
  exact List.ne_nil_of_mem (mem_groupRows.mpr ⟨hr, hb, he⟩)

theorem map_emu_no_filterMap (t : List QRRow) (code : String) :
    ∀ l : List String, (∀ emu ∈ l, groupRows t code emu ≠ []) →
      (l.filterMap (fun emu => minByRowid (groupRows t code emu))).map
          (fun r => r.emu_no) = l := by
  intro l
  induction l with
  | nil => intro _; simp
  | cons emu rest ih =>
    intro h
    have hne : groupRows t code emu ≠ [] := h emu (List.mem_cons_self emu rest)
    cases hm : minByRowid (groupRows t code emu) with
    | none => exact absurd (minByRowid_eq_none.mp hm) hne
    | some r =>
      have hr : r.emu_no = emu := (mem_groupRows.mp (minByRowid_mem hm)).2.2
      simp only [List.filterMap_cons, hm, List.map_cons, hr]
      rw [ih (fun e he => h e (List.mem_cons_of_mem emu he))]

theorem sorted_lt_of_le_nodup {l : List String} (hs : l.Sorted (· ≤ ·))
    (hn : l.Nodup) : l.Sorted (· < ·) := by
  induction l with
  | nil => simp
  | cons a as ih =>
    rw [List.sorted_cons] at hs ⊢
    rcases hs with ⟨ha, hs⟩
    rcases List.nodup_cons.mp hn with ⟨hna, hn⟩
    refine ⟨fun b hb => lt_of_le_of_ne (ha b hb) ?_, ih hs hn⟩
    rintro rfl
    exact hna hb

theorem vehicleIds_sorted_lt (t : List QRRow) (code : String) :
    List.Sorted (· < ·) (vehicleIds t code) := by
  refine sorted_lt_of_le_nodup (List.sorted_insertionSort _ _) ?_
  exact (List.perm_insertionSort _ _).nodup_iff.mpr (List.nodup_dedup _)

/-- C5: for every scan-code table content and every provider, the query
returns exactly one row per vehicle of that provider — the row of minimal
rowid, i.e. the earliest-inserted scan code — and presents the vehicles in
strictly ascending vehicle-id order (so the runner processes them in that
order). -/
theorem c5_select_one_earliest_per_vehicle (t : List QRRow) (code : String) :
    SelectSpec t code := by
  have hmap : (selectScanCodes t code).map (fun r => r.emu_no) = vehicleIds t code :=
    map_emu_no_filterMap t code (vehicleIds t code) (fun emu he => groupRows_ne_nil he)
  refine ⟨hmap, ?_, ?_, ?_⟩
  · rw [hmap]
    exact vehicleIds_sorted_lt t code
  · intro r hr
    rcases List.mem_filterMap.mp hr with ⟨emu, _, hm⟩
    have hg := mem_groupRows.mp (minByRowid_mem hm)
    refine ⟨hg.1, hg.2.1, ?_⟩
    intro r₂ h₂ hb₂ he₂
    exact minByRowid_le hm r₂ (mem_groupRows.mpr ⟨h₂, hb₂, he₂.trans hg.2.2⟩)
  · intro r hr hb
    rw [hmap]
    exact mem_vehicleIds.mpr ⟨r, hr, hb, rfl⟩

/-- C5 witness: a concrete table for bureau "H" with two vehicles, one of
them carrying two scan codes inserted in the order of their rowids, and a
row of another bureau. -/
theorem c5_select_one_earliest_per_vehicle_witness :
    SelectSpec
      [⟨1, "CRH2-010", "H", "PQ9"⟩, ⟨2, "CRH1-001", "H", "PQ1"⟩,
       ⟨3, "CRH1-001", "H", "PQ2"⟩, ⟨4, "CRH3-003", "P", "QR7"⟩] "H" :=
  c5_select_one_earliest_per_vehicle
    [⟨1, "CRH2-010", "H", "PQ9"⟩, ⟨2, "CRH1-001", "H", "PQ1"⟩,
     ⟨3, "CRH1-001", "H", "PQ2"⟩, ⟨4, "CRH3-003", "P", "QR7"⟩] "H"

end EmuLog
